import Mathlib

/-!
Shallow embedding of `lanelet2_to_opendrive_local.py`, a one-shot converter
from Lanelet2 OSM-XML maps to OpenDRIVE XML.  The Python floating-point
arithmetic is modelled by exact real arithmetic; XML element trees are
modelled by Lean structures mirroring the attributes the program sets.
-/

namespace Lanelet2

/-- A planar point, as stored in the node table (`{'x': ..., 'y': ...}`). -/
structure Point where
  x : ℝ
  y : ℝ

/-- `math.atan2`, modelled piecewise through `Real.arctan`. -/
noncomputable def atan2 (y x : ℝ) : ℝ :=
  if 0 < x then Real.arctan (y / x)
  else if x < 0 then
    (if 0 ≤ y then Real.arctan (y / x) + Real.pi else Real.arctan (y / x) - Real.pi)
  else
    (if 0 < y then Real.pi / 2
     else if y < 0 then -(Real.pi / 2)
     else 0)

/-- Euclidean length of the segment from `p` to `q`:
`dx = x2 - x1; dy = y2 - y1; length = sqrt(dx*dx + dy*dy)`. -/
noncomputable def segLen (p q : Point) : ℝ :=
  Real.sqrt ((q.x - p.x) * (q.x - p.x) + (q.y - p.y) * (q.y - p.y))

/-- One `planView` geometry record: the dict
`{'s': ..., 'x': ..., 'y': ..., 'hdg': ..., 'length': ...}`
appended by `calculate_geometry`. -/
structure Geometry where
  s : ℝ
  x : ℝ
  y : ℝ
  hdg : ℝ
  length : ℝ

/-- The loop of `calculate_geometry`: walk consecutive point pairs carrying
the accumulated arc-length offset `s_offset`; a pair is emitted exactly when
its length exceeds `0.01`, and only then does the offset advance. -/
noncomputable def calcGeomAux : List Point → ℝ → List Geometry × ℝ
  | p1 :: p2 :: rest, s_offset =>
    if 0.01 < segLen p1 p2 then
      let r := calcGeomAux (p2 :: rest) (s_offset + segLen p1 p2)
      ({ s := s_offset, x := p1.x, y := p1.y,
         hdg := atan2 (p2.y - p1.y) (p2.x - p1.x),
         length := segLen p1 p2 } :: r.1, r.2)
    else
      calcGeomAux (p2 :: rest) s_offset
  | _, s_offset => ([], s_offset)

/-- `calculate_geometry(points)`: the geometry records and the final offset
(total length). -/
noncomputable def calculate_geometry (points : List Point) : List Geometry × ℝ :=
  calcGeomAux points 0

/-- The consecutive index pairs `(points[i], points[i+1])`, `i ∈ [0, len-2]`. -/
def consecutivePairs (points : List Point) : List (Point × Point) :=
  points.zip points.tail

/-- Spec wording: the qualifying pairs are exactly the consecutive pairs whose
Euclidean length exceeds the fixed epsilon `0.01`. -/
noncomputable def quals (points : List Point) : List (Point × Point) :=
  (consecutivePairs points).filter fun pq => decide (0.01 < segLen pq.1 pq.2)

/-- Spec wording: emit one record per qualifying pair at the current
accumulated offset and advance the offset by the pair's length. -/
noncomputable def specRecordsFrom (s : ℝ) : List (Point × Point) → List Geometry
  | [] => []
  | (p, q) :: rest =>
    { s := s, x := p.x, y := p.y,
      hdg := atan2 (q.y - p.y) (q.x - p.x),
      length := segLen p q } :: specRecordsFrom (s + segLen p q) rest

/-- Spec-side geometry derivation: records for the qualifying pairs with
accumulated offsets starting at `0`, and total length the sum of the
qualifying pairs' lengths. -/
noncomputable def specDerive (points : List Point) : List Geometry × ℝ :=
  (specRecordsFrom 0 (quals points),
   ((quals points).map fun pq => segLen pq.1 pq.2).sum)

/-- A `member` child of a `relation` element; each attribute is read with
`.get(...)` and may be absent (`None`). -/
structure Member where
  type : Option String
  ref : Option String
  role : Option String

/-- A parsed `way`: ordered node refs and the flattened tag map. -/
structure Way where
  nodes : List String
  tags : List (String × String)

/-- A parsed lanelet relation: member triples and the relation's tag map. -/
structure Rel where
  members : List Member
  tags : List (String × String)

/-- The node table `nodes`: id → coordinate, `None` when absent. -/
abbrev NodeTbl := String → Option Point

/-- The way table `ways`: id → way, `None` when absent. -/
abbrev WayTbl := String → Option Way

/-- The member scan of `create_opendrive_local`: each `left`/`way` member
overwrites `left_way` with its `ref` (so the last such member wins), and
likewise for `right`; a missing `ref` attribute stores `none`. -/
def scanMembers : List Member → Option String × Option String → Option String × Option String
  | [], acc => acc
  | m :: rest, (l, r) =>
    if m.role = some "left" ∧ m.type = some "way" then scanMembers rest (m.ref, r)
    else if m.role = some "right" ∧ m.type = some "way" then scanMembers rest (l, m.ref)
    else scanMembers rest (l, r)

/-- Python truthiness of a scanned `ref` value: `None` and `""` are falsy. -/
def truthy : Option String → Bool
  | none => false
  | some s => s != ""

/-- The guard `left_way and right_way and left_way in ways and right_way in ways`
followed by the resolution of both boundary ways to point lists, dropping
node ids absent from the node table. -/
def boundaries (nodes : NodeTbl) (ways : WayTbl) (rel : Rel) :
    Option (List Point × List Point) :=
  match scanMembers rel.members (none, none) with
  | (l, r) =>
    if truthy l && truthy r then
      match ways (l.getD ""), ways (r.getD "") with
      | some lw, some rw => some (lw.nodes.filterMap nodes, rw.nodes.filterMap nodes)
      | _, _ => none
    else none

/-- The centerline: for `i` in `range(min_len)`, the midpoint of
`left_points[i]` and `right_points[i]`. -/
noncomputable def centerlineOf (left_points right_points : List Point) : List Point :=
  List.zipWith (fun p q => ⟨(p.x + q.x) / 2, (p.y + q.y) / 2⟩) left_points right_points

/-- The width samples: for `i` in `range(min_len)`, the Euclidean distance
between `left_points[i]` and `right_points[i]`. -/
noncomputable def laneWidthsOf (left_points right_points : List Point) : List ℝ :=
  List.zipWith
    (fun p q => Real.sqrt ((p.x - q.x) * (p.x - q.x) + (p.y - q.y) * (p.y - q.y)))
    left_points right_points

/-- `np.mean(lane_widths) if lane_widths else 3.5`. -/
noncomputable def avgWidth (ws : List ℝ) : ℝ :=
  if ws.isEmpty then 3.5 else ws.sum / ws.length

/-- A `width` child of a lane (`sOffset`/`a`/`b`/`c`/`d`). -/
structure LaneWidth where
  sOffset : ℝ
  a : ℝ
  b : ℝ
  c : ℝ
  d : ℝ

/-- A `roadMark` child of a lane. -/
structure RoadMark where
  sOffset : ℝ
  type : String
  weight : String
  color : String
  width : ℝ

/-- A `lane` element; `level` is `none` when the attribute is not set. -/
structure Lane where
  id : Int
  type : String
  level : Option String
  widths : List LaneWidth
  roadMarks : List RoadMark

/-- A `laneSection` element with its `left`/`center`/`right` lane groups
(a group the program never creates is the empty list). -/
structure LaneSection where
  s : ℝ
  left : List Lane
  center : List Lane
  right : List Lane

/-- The single zero `elevation` entry of the `elevationProfile`. -/
structure Elevation where
  s : ℝ
  a : ℝ
  b : ℝ
  c : ℝ
  d : ℝ

/-- A `road` element as assembled by `create_opendrive_local`. -/
structure Road where
  name : String
  id : Nat
  junction : Int
  length : ℝ
  planView : List Geometry
  elevationProfile : List Elevation
  laneSections : List LaneSection

/-- The XML assembly for one accepted relation: name `Road_<id>`, the
geometry records and total length from `calculate_geometry`, the flat
elevation profile, and one lane section with a center lane (id 0, `none`)
and a right driving lane (id -1) carrying the constant width polynomial
and the solid white road mark. -/
noncomputable def mkRoad (road_id : Nat) (lp rp : List Point) : Road :=
  let g := calculate_geometry (centerlineOf lp rp)
  let centerLane : Lane :=
    { id := 0, type := "none", level := none, widths := [], roadMarks := [] }
  let rightWidth : LaneWidth :=
    { sOffset := 0, a := avgWidth (laneWidthsOf lp rp), b := 0, c := 0, d := 0 }
  let rightMark : RoadMark :=
    { sOffset := 0, type := "solid", weight := "standard", color := "white", width := 0.12 }
  let rightLane : Lane :=
    { id := -1, type := "driving", level := some "false",
      widths := [rightWidth], roadMarks := [rightMark] }
  let section0 : LaneSection :=
    { s := 0, left := [], center := [centerLane], right := [rightLane] }
  { name := "Road_" ++ toString road_id,
    id := road_id,
    junction := -1,
    length := g.2,
    planView := g.1,
    elevationProfile := [{ s := 0, a := 0, b := 0, c := 0, d := 0 }],
    laneSections := [section0] }

/-- Processing of one relation: member resolution and boundary resolution
(`boundaries`), the `len(left_points) > 1 and len(right_points) > 1` guard,
the `len(centerline_points) > 1` guard, then road assembly.  `none` means
the relation is skipped. -/
noncomputable def relRoad (nodes : NodeTbl) (ways : WayTbl) (rel : Rel)
    (road_id : Nat) : Option Road :=
  match boundaries nodes ways rel with
  | some (lp, rp) =>
    if 1 < lp.length ∧ 1 < rp.length then
      if 1 < (centerlineOf lp rp).length then some (mkRoad road_id lp rp)
      else none
    else none
  | none => none

/-- The relation loop of `create_opendrive_local`, carrying `road_id` and
`processed_roads`; both counters advance only when a road is emitted. -/
noncomputable def convertAux (nodes : NodeTbl) (ways : WayTbl) :
    List Rel → Nat → Nat → List Road × Nat
  | [], _, processed => ([], processed)
  | rel :: rest, road_id, processed =>
    match relRoad nodes ways rel road_id with
    | some road =>
      let r := convertAux nodes ways rest (road_id + 1) (processed + 1)
      (road :: r.1, r.2)
    | none => convertAux nodes ways rest road_id processed

/-- `create_opendrive_local`: the ordered `road` elements of the output
document and the returned `processed_roads` count. -/
noncomputable def create_opendrive_local (nodes : NodeTbl) (ways : WayTbl)
    (relations : List Rel) : List Road × Nat :=
  convertAux nodes ways relations 0 0

/-- A `node` element: its `id` attribute and its child tags.  Tag values are
modelled as the numbers `float(v)` yields; the code only ever parses the
values of `local_x`/`local_y` tags, so the stand-in for other tags' values
is never consulted. -/
structure NodeElem where
  id : String
  tags : List (String × ℝ)

/-- The tag scan of the node loop in `parse_lanelet2_local`: each `local_x`
tag overwrites `local_x` (so the last one wins), and likewise `local_y`. -/
def scanNodeTags : List (String × ℝ) → Option ℝ × Option ℝ → Option ℝ × Option ℝ
  | [], acc => acc
  | (k, v) :: rest, (lx, ly) =>
    if k = "local_x" then scanNodeTags rest (some v, ly)
    else if k = "local_y" then scanNodeTags rest (lx, some v)
    else scanNodeTags rest (lx, ly)

/-- One step of node-table construction: `nodes[node_id] = {...}` exactly when
both coordinates were found, otherwise the table is unchanged. -/
def insertNode (tbl : NodeTbl) (n : NodeElem) : NodeTbl :=
  match scanNodeTags n.tags (none, none) with
  | (some x, some y) => fun k => if k = n.id then some ⟨x, y⟩ else tbl k
  | _ => tbl

/-- The node table built by `parse_lanelet2_local`: dict insertion in
document order, later elements shadowing earlier ones with the same id. -/
def nodesOf (ns : List NodeElem) : NodeTbl :=
  ns.foldl insertNode (fun _ => none)

/-- A concrete node table: a straight left boundary on `y = 0` and a right
boundary on `y = -2`, two vertices each. -/
noncomputable def nodesW : NodeTbl := fun i =>
  if i = "1" then some ⟨0, 0⟩
  else if i = "2" then some ⟨10, 0⟩
  else if i = "3" then some ⟨0, -2⟩
  else if i = "4" then some ⟨10, -2⟩
  else none

/-- A concrete way table: way `L` = nodes 1,2 and way `R` = nodes 3,4. -/
def waysW : WayTbl := fun i =>
  if i = "L" then some ⟨["1", "2"], []⟩
  else if i = "R" then some ⟨["3", "4"], []⟩
  else none

/-- A well-formed lanelet relation over `waysW`. -/
def relW : Rel :=
  { members := [{ type := some "way", ref := some "L", role := some "left" },
                { type := some "way", ref := some "R", role := some "right" }],
    tags := [("type", "lanelet")] }

noncomputable def lpW : List Point := [⟨0, 0⟩, ⟨10, 0⟩]

noncomputable def rpW : List Point := [⟨0, -2⟩, ⟨10, -2⟩]

/-- The road emitted for `relW`. -/
noncomputable def roadW : Road :=
  let centerLane : Lane :=
    { id := 0, type := "none", level := none, widths := [], roadMarks := [] }
  let rightWidth : LaneWidth :=
    { sOffset := 0, a := 2, b := 0, c := 0, d := 0 }
  let rightMark : RoadMark :=
    { sOffset := 0, type := "solid", weight := "standard", color := "white", width := 0.12 }
  let rightLane : Lane :=
    { id := -1, type := "driving", level := some "false",
      widths := [rightWidth], roadMarks := [rightMark] }
  let section0 : LaneSection :=
    { s := 0, left := [], center := [centerLane], right := [rightLane] }
  { name := "Road_0",
    id := 0,
    junction := -1,
    length := 10,
    planView := [{ s := 0, x := 0, y := -1, hdg := 0, length := 10 }],
    elevationProfile := [{ s := 0, a := 0, b := 0, c := 0, d := 0 }],
    laneSections := [section0] }

/-- A node table whose two nodes are only `0.005` apart. -/
noncomputable def nodesC1 : NodeTbl := fun i =>
  if i = "1" then some ⟨0, 0⟩
  else if i = "2" then some ⟨0, 0.005⟩
  else none

/-- Ways `L` and `R` both traverse the two close nodes. -/
def waysC1 : WayTbl := fun i =>
  if i = "L" then some ⟨["1", "2"], []⟩
  else if i = "R" then some ⟨["1", "2"], []⟩
  else none

noncomputable def lpC1 : List Point := [⟨0, 0⟩, ⟨0, 0.005⟩]

/-- The road emitted for the epsilon-collapsed relation: its `planView` is
empty and its declared length is `0`. -/
noncomputable def roadC1 : Road :=
  let centerLane : Lane :=
    { id := 0, type := "none", level := none, widths := [], roadMarks := [] }
  let rightWidth : LaneWidth :=
    { sOffset := 0, a := 0, b := 0, c := 0, d := 0 }
  let rightMark : RoadMark :=
    { sOffset := 0, type := "solid", weight := "standard", color := "white", width := 0.12 }
  let rightLane : Lane :=
    { id := -1, type := "driving", level := some "false",
      widths := [rightWidth], roadMarks := [rightMark] }
  let section0 : LaneSection :=
    { s := 0, left := [], center := [centerLane], right := [rightLane] }
  { name := "Road_0",
    id := 0,
    junction := -1,
    length := 0,
    planView := [],
    elevationProfile := [{ s := 0, a := 0, b := 0, c := 0, d := 0 }],
    laneSections := [section0] }

/-- The three-point sequence of the epsilon-skip test case. -/
noncomputable def ptsC2 : List Point := [⟨0, 0⟩, ⟨0, 0.005⟩, ⟨0, 10⟩]

/-- The width coefficient `a` of the single `width` entry of the single
right lane of the single lane section (and `none` when the road does not
have that shape). -/
def roadWidthA (road : Road) : Option ℝ :=
  match road.laneSections with
  | [sec] =>
    match sec.right with
    | [ln] =>
      match ln.widths with
      | [w] => some w.a
      | _ => none
    | _ => none
  | _ => none

/-- A relation whose left member references a way id absent from the way
table. -/
def relBad : Rel :=
  { members := [{ type := some "way", ref := some "NOPE", role := some "left" },
                { type := some "way", ref := some "R", role := some "right" }],
    tags := [("type", "lanelet")] }

/-- A relation whose single left-role way member carries no `ref`
attribute. -/
def mC10 : Member := { type := some "way", ref := none, role := some "left" }

def ms2C10 : List Member := [{ type := some "way", ref := some "R", role := some "right" }]

def relC10 : Rel := { members := [] ++ mC10 :: ms2C10, tags := [] }

/-- The node elements of the C7 witness document. -/
def nodeElemA : NodeElem := { id := "1", tags := [("local_x", 3), ("local_y", 4)] }

def nodeElemB : NodeElem := { id := "2", tags := [("local_x", 5)] }

lemma quals_nil : quals [] = [] := by
  simp [quals, consecutivePairs]

lemma quals_single (p : Point) : quals [p] = [] := by
  simp [quals, consecutivePairs]

lemma quals_cons (p q : Point) (rest : List Point) :
    quals (p :: q :: rest) =
      if 0.01 < segLen p q then (p, q) :: quals (q :: rest) else quals (q :: rest) := by
  simp only [quals, consecutivePairs, List.tail_cons, List.zip_cons_cons, List.filter_cons]
  by_cases h : 0.01 < segLen p q
  · simp [h]
  · simp [h]

/-- `calcGeomAux` computes the spec-side derivation, shifted by the incoming
offset. -/
lemma calcGeomAux_eq (xs : List Point) : ∀ s : ℝ,
    calcGeomAux xs s =
      (specRecordsFrom s (quals xs),
       s + ((quals xs).map fun pq => segLen pq.1 pq.2).sum) := by
  induction xs with
  | nil =>
    intro s
    simp [calcGeomAux, quals_nil, specRecordsFrom]
  | cons p xs ih =>
    cases xs with
    | nil =>
      intro s
      simp [calcGeomAux, quals_single, specRecordsFrom]
    | cons q rest =>
      intro s
      rw [quals_cons]
      by_cases h : 0.01 < segLen p q
      · simp only [calcGeomAux, if_pos h, ih (s + segLen p q), specRecordsFrom]
        simp [add_assoc]
      · simp only [calcGeomAux, if_neg h, ih s, if_neg h]

/-- `calculate_geometry` refines the spec-side derivation. -/
lemma calculate_geometry_eq_specDerive (points : List Point) :
    calculate_geometry points = specDerive points := by
  rw [calculate_geometry, calcGeomAux_eq points 0, specDerive, zero_add]

lemma sqrt_val {a b : ℝ} (hb : 0 ≤ b) (h : a = b * b) : Real.sqrt a = b := by
  rw [h, Real.sqrt_mul_self hb]

lemma segLen_eval {p q : Point} {d : ℝ} (hd : 0 ≤ d)
    (h : (q.x - p.x) * (q.x - p.x) + (q.y - p.y) * (q.y - p.y) = d * d) :
    segLen p q = d := by
  rw [segLen, h, Real.sqrt_mul_self hd]

/-- Inversion principle for `relRoad`: a road is emitted exactly when the
boundaries resolve, both have more than one point, the centerline has more
than one point, and then the road is the assembled one. -/
lemma relRoad_some_iff {nodes : NodeTbl} {ways : WayTbl} {rel : Rel}
    {road_id : Nat} {road : Road} :
    relRoad nodes ways rel road_id = some road ↔
      ∃ lp rp, boundaries nodes ways rel = some (lp, rp) ∧
        1 < lp.length ∧ 1 < rp.length ∧ 1 < (centerlineOf lp rp).length ∧
        road = mkRoad road_id lp rp := by
  constructor
  · intro h
    unfold relRoad at h
    split at h
    case _ lp rp hb =>
      split at h
      case isTrue h1 =>
        split at h
        case isTrue h2 => exact ⟨lp, rp, hb, h1.1, h1.2, h2, (Option.some.inj h).symm⟩
        case isFalse h2 => cases h
      case isFalse h1 => cases h
    case _ hb => cases h
  · rintro ⟨lp, rp, hb, hl, hr, hc, rfl⟩
    unfold relRoad
    rw [hb]
    dsimp only
    rw [if_pos ⟨hl, hr⟩, if_pos hc]

lemma specRecordsFrom_length (l : List (Point × Point)) : ∀ s : ℝ,
    (specRecordsFrom s l).length = l.length := by
  induction l with
  | nil => intro s; simp [specRecordsFrom]
  | cons pq rest ih =>
    intro s
    obtain ⟨p, q⟩ := pq
    simp [specRecordsFrom, ih]

lemma specRecordsFrom_map_length (l : List (Point × Point)) : ∀ s : ℝ,
    ((specRecordsFrom s l).map Geometry.length).sum =
      (l.map fun pq => segLen pq.1 pq.2).sum := by
  induction l with
  | nil => intro s; simp [specRecordsFrom]
  | cons pq rest ih =>
    intro s
    obtain ⟨p, q⟩ := pq
    simp [specRecordsFrom, ih]

lemma specRecordsFrom_get?_s (l : List (Point × Point)) :
    ∀ (s : ℝ) (j : Nat) (g : Geometry), (specRecordsFrom s l).get? j = some g →
      g.s = s + (((specRecordsFrom s l).take j).map Geometry.length).sum := by
  induction l with
  | nil => intro s j g h; simp [specRecordsFrom] at h
  | cons pq rest ih =>
    obtain ⟨p, q⟩ := pq
    intro s j g h
    cases j with
    | zero =>
      rw [specRecordsFrom, List.get?_cons_zero] at h
      cases Option.some.inj h
      simp [specRecordsFrom]
    | succ j =>
      rw [specRecordsFrom, List.get?_cons_succ] at h
      rw [ih (s + segLen p q) j g h]
      simp [specRecordsFrom, add_assoc]

lemma specRecordsFrom_eq_nil_iff (s : ℝ) (l : List (Point × Point)) :
    specRecordsFrom s l = [] ↔ l = [] := by
  cases l with
  | nil => simp [specRecordsFrom]
  | cons pq rest =>
    obtain ⟨p, q⟩ := pq
    simp [specRecordsFrom]

/-- The record list of `calculate_geometry` is empty exactly when no
consecutive pair is longer than the epsilon. -/
lemma calculate_geometry_fst_nil_iff (points : List Point) :
    (calculate_geometry points).1 = [] ↔
      ∀ pq ∈ consecutivePairs points, ¬ 0.01 < segLen pq.1 pq.2 := by
  rw [calculate_geometry_eq_specDerive, specDerive]
  simp only [specRecordsFrom_eq_nil_iff, quals, List.filter_eq_nil_iff]
  constructor
  · intro h pq hpq
    have := h pq hpq
    simpa using this
  · intro h pq hpq
    simpa using h pq hpq

lemma scanW : scanMembers relW.members (none, none) = (some "L", some "R") := by
  simp [scanMembers, relW]

lemma boundariesW : boundaries nodesW waysW relW = some (lpW, rpW) := by
  unfold boundaries
  rw [scanW]
  simp [truthy, waysW, nodesW, lpW, rpW, List.filterMap]

lemma centerlineW : centerlineOf lpW rpW = [⟨0, -1⟩, ⟨10, -1⟩] := by
  simp only [centerlineOf, lpW, rpW, List.zipWith]
  norm_num

lemma calcW : calculate_geometry [⟨0, -1⟩, ⟨10, -1⟩] =
    ([{ s := 0, x := 0, y := -1, hdg := 0, length := 10 }], 10) := by
  have hlen : segLen ⟨0, -1⟩ ⟨10, -1⟩ = 10 := segLen_eval (by norm_num) (by norm_num)
  have hatan : atan2 (0 : ℝ) (10 : ℝ) = 0 := by
    rw [atan2, if_pos (by norm_num : (0 : ℝ) < 10)]
    norm_num [Real.arctan_zero]
  rw [calculate_geometry]
  simp only [calcGeomAux, hlen, if_pos (by norm_num : (0.01 : ℝ) < 10)]
  norm_num [hatan]

lemma laneWidthsW : laneWidthsOf lpW rpW = [2, 2] := by
  have h1 : Real.sqrt (((0 : ℝ) - 0) * (0 - 0) + ((0 : ℝ) - (-2)) * (0 - (-2))) = 2 :=
    sqrt_val (by norm_num) (by norm_num)
  have h2 : Real.sqrt (((10 : ℝ) - 10) * (10 - 10) + ((0 : ℝ) - (-2)) * (0 - (-2))) = 2 :=
    sqrt_val (by norm_num) (by norm_num)
  simp only [laneWidthsOf, lpW, rpW, List.zipWith, h1, h2]

lemma widthW : avgWidth (laneWidthsOf lpW rpW) = 2 := by
  rw [laneWidthsW]
  norm_num [avgWidth]

lemma mkRoadW : mkRoad 0 lpW rpW = roadW := by
  unfold mkRoad roadW
  rw [centerlineW, calcW, widthW]
  rfl

lemma relRoadW : relRoad nodesW waysW relW 0 = some roadW :=
  relRoad_some_iff.mpr ⟨lpW, rpW, boundariesW, by simp [lpW], by simp [rpW],
    by rw [centerlineW]; simp, mkRoadW.symm⟩

lemma boundariesC1 : boundaries nodesC1 waysC1 relW = some (lpC1, lpC1) := by
  unfold boundaries
  rw [scanW]
  simp [truthy, waysC1, nodesC1, lpC1, List.filterMap]

lemma centerlineC1 : centerlineOf lpC1 lpC1 = [⟨0, 0⟩, ⟨0, 0.005⟩] := by
  simp only [centerlineOf, lpC1, List.zipWith]
  norm_num

lemma calcC1 : calculate_geometry [⟨0, 0⟩, ⟨0, 0.005⟩] = ([], 0) := by
  have hlen : segLen ⟨0, 0⟩ ⟨0, 0.005⟩ = 0.005 := segLen_eval (by norm_num) (by norm_num)
  rw [calculate_geometry]
  simp only [calcGeomAux, hlen, if_neg (by norm_num : ¬ (0.01 : ℝ) < 0.005)]

lemma widthC1 : avgWidth (laneWidthsOf lpC1 lpC1) = 0 := by
  have h1 : Real.sqrt (((0 : ℝ) - 0) * (0 - 0) + ((0 : ℝ) - 0) * (0 - 0)) = 0 :=
    sqrt_val (by norm_num) (by norm_num)
  have h2 : Real.sqrt (((0 : ℝ) - 0) * (0 - 0) + ((0.005 : ℝ) - 0.005) * (0.005 - 0.005)) = 0 :=
    sqrt_val (by norm_num) (by norm_num)
  simp only [laneWidthsOf, lpC1, List.zipWith, h1, h2]
  norm_num [avgWidth]

lemma mkRoadC1 : mkRoad 0 lpC1 lpC1 = roadC1 := by
  unfold mkRoad roadC1
  rw [centerlineC1, calcC1, widthC1]
  rfl

lemma relRoadC1 : relRoad nodesC1 waysC1 relW 0 = some roadC1 :=
  relRoad_some_iff.mpr ⟨lpC1, lpC1, boundariesC1, by simp [lpC1], by simp [lpC1],
    by rw [centerlineC1]; simp, mkRoadC1.symm⟩

lemma createC1 : create_opendrive_local nodesC1 waysC1 [relW] = ([roadC1], 1) := by
  unfold create_opendrive_local convertAux
  rw [relRoadC1]
  rfl

/-- Evaluation of `calculate_geometry` on the test case: the short first pair
is skipped, and the single emitted record starts at the intermediate point
`(0, 0.005)` with length `9.995`; the returned total is `9.995`. -/
lemma calcC2 : calculate_geometry ptsC2 =
    ([{ s := 0, x := 0, y := 0.005, hdg := Real.pi / 2, length := 9.995 }], 9.995) := by
  have h1 : segLen ⟨0, 0⟩ ⟨0, 0.005⟩ = 0.005 := segLen_eval (by norm_num) (by norm_num)
  have h2 : segLen ⟨0, 0.005⟩ ⟨0, 10⟩ = 9.995 := segLen_eval (by norm_num) (by norm_num)
  rw [calculate_geometry, ptsC2]
  simp only [calcGeomAux, h1, h2, if_neg (by norm_num : ¬ (0.01 : ℝ) < 0.005),
    if_pos (by norm_num : (0.01 : ℝ) < 9.995)]
  norm_num
  rw [atan2, if_neg (by norm_num : ¬ (0 : ℝ) < 0), if_neg (by norm_num : ¬ (0 : ℝ) < 0),
    if_pos (by norm_num : (0 : ℝ) < 1999 / 200)]

lemma scanMembers_append (xs ys : List Member) : ∀ acc,
    scanMembers (xs ++ ys) acc = scanMembers ys (scanMembers xs acc) := by
  induction xs with
  | nil => intro acc; rfl
  | cons m rest ih =>
    intro acc
    obtain ⟨l, r⟩ := acc
    simp only [List.cons_append, scanMembers]
    split_ifs <;> apply ih

lemma scanMembers_fst_no_left (ms : List Member)
    (h : ∀ m ∈ ms, ¬(m.role = some "left" ∧ m.type = some "way")) :
    ∀ acc, (scanMembers ms acc).1 = acc.1 := by
  induction ms with
  | nil => intro acc; rfl
  | cons m rest ih =>
    intro acc
    obtain ⟨l, r⟩ := acc
    have hm := h m (by simp)
    have hrest : ∀ m' ∈ rest, ¬(m'.role = some "left" ∧ m'.type = some "way") :=
      fun m' hm' => h m' (by simp [hm'])
    simp only [scanMembers, if_neg hm]
    split_ifs
    · exact ih hrest (l, m.ref)
    · exact ih hrest (l, r)

lemma scanMembers_snd_no_right (ms : List Member)
    (h : ∀ m ∈ ms, ¬(m.role = some "right" ∧ m.type = some "way")) :
    ∀ acc, (scanMembers ms acc).2 = acc.2 := by
  induction ms with
  | nil => intro acc; rfl
  | cons m rest ih =>
    intro acc
    obtain ⟨l, r⟩ := acc
    have hm := h m (by simp)
    have hrest : ∀ m' ∈ rest, ¬(m'.role = some "right" ∧ m'.type = some "way") :=
      fun m' hm' => h m' (by simp [hm'])
    by_cases hc1 : m.role = some "left" ∧ m.type = some "way"
    · simp only [scanMembers, if_pos hc1]
      exact ih hrest (m.ref, r)
    · by_cases hc2 : m.role = some "right" ∧ m.type = some "way"
      · exact absurd hc2 hm
      · simp only [scanMembers, if_neg hc1, if_neg hc2]
        exact ih hrest (l, r)

/-- A relation whose scanned `left_way` or `right_way` is falsy resolves no
boundaries. -/
lemma boundaries_eq_none {nodes : NodeTbl} {ways : WayTbl} {rel : Rel}
    (h : truthy (scanMembers rel.members (none, none)).1 = false ∨
         truthy (scanMembers rel.members (none, none)).2 = false) :
    boundaries nodes ways rel = none := by
  unfold boundaries
  rcases hsc : scanMembers rel.members (none, none) with ⟨l, r⟩
  rw [hsc] at h
  dsimp only at h ⊢
  rcases h with h1 | h1
  · rw [if_neg (by simp [h1])]
  · rw [if_neg (by simp [h1])]

/-- A skipped relation leaves the loop state untouched. -/
lemma convertAux_skip {nodes : NodeTbl} {ways : WayTbl} {rel : Rel}
    {rest : List Rel} {road_id processed : Nat}
    (h : relRoad nodes ways rel road_id = none) :
    convertAux nodes ways (rel :: rest) road_id processed =
      convertAux nodes ways rest road_id processed := by
  simp only [convertAux, h]

lemma mkRoad_id (road_id : Nat) (lp rp : List Point) :
    (mkRoad road_id lp rp).id = road_id := rfl

lemma mkRoad_planView (road_id : Nat) (lp rp : List Point) :
    (mkRoad road_id lp rp).planView = (calculate_geometry (centerlineOf lp rp)).1 := rfl

lemma mkRoad_length (road_id : Nat) (lp rp : List Point) :
    (mkRoad road_id lp rp).length = (calculate_geometry (centerlineOf lp rp)).2 := rfl

/-- The emitted roads carry the ids `road_id, road_id+1, ...` in order, and
the processed counter advances by exactly the number of emitted roads. -/
lemma convertAux_ids (nodes : NodeTbl) (ways : WayTbl) (rels : List Rel) :
    ∀ road_id processed : Nat,
    (convertAux nodes ways rels road_id processed).1.map Road.id =
      List.range' road_id (convertAux nodes ways rels road_id processed).1.length ∧
    (convertAux nodes ways rels road_id processed).2 =
      processed + (convertAux nodes ways rels road_id processed).1.length := by
  induction rels with
  | nil => intro rid p; simp [convertAux]
  | cons rel rest ih =>
    intro rid p
    cases h : relRoad nodes ways rel rid with
    | none =>
      rw [convertAux_skip h]
      exact ih rid p
    | some road =>
      have hid : road.id = rid := by
        obtain ⟨lp, rp, _, _, _, _, hroad⟩ := relRoad_some_iff.mp h
        rw [hroad, mkRoad_id]
      have hconv : convertAux nodes ways (rel :: rest) rid p =
          (road :: (convertAux nodes ways rest (rid + 1) (p + 1)).1,
           (convertAux nodes ways rest (rid + 1) (p + 1)).2) := by
        simp only [convertAux, h]
      rw [hconv]
      obtain ⟨ih1, ih2⟩ := ih (rid + 1) (p + 1)
      refine ⟨?_, ?_⟩
      · simp only [List.map_cons, List.length_cons, hid, ih1, List.range'_succ]
      · simp only [ih2, List.length_cons]
        omega

lemma insertNode_ne {tbl : NodeTbl} {n : NodeElem} {k : String} (h : k ≠ n.id) :
    insertNode tbl n k = tbl k := by
  unfold insertNode
  rcases hsc : scanNodeTags n.tags (none, none) with ⟨a, b⟩
  cases a <;> cases b <;> simp [h]

lemma insertNode_self_both {tbl : NodeTbl} {n : NodeElem} {x y : ℝ}
    (hsc : scanNodeTags n.tags (none, none) = (some x, some y)) :
    insertNode tbl n n.id = some ⟨x, y⟩ := by
  unfold insertNode
  rw [hsc]
  simp

lemma insertNode_self_other {tbl : NodeTbl} {n : NodeElem}
    (h : (scanNodeTags n.tags (none, none)).1 = none ∨
         (scanNodeTags n.tags (none, none)).2 = none) :
    insertNode tbl n n.id = tbl n.id := by
  unfold insertNode
  rcases hsc : scanNodeTags n.tags (none, none) with ⟨a, b⟩
  rw [hsc] at h
  rcases h with h | h <;> subst h
  · cases b <;> simp
  · cases a <;> simp

lemma foldl_insertNode_not_mem (ns : List NodeElem) :
    ∀ (tbl : NodeTbl) (k : String), k ∉ ns.map NodeElem.id →
      ns.foldl insertNode tbl k = tbl k := by
  induction ns with
  | nil => intro tbl k _; rfl
  | cons n rest ih =>
    intro tbl k hk
    simp only [List.map_cons, List.mem_cons, not_or] at hk
    rw [List.foldl_cons, ih _ k hk.2, insertNode_ne hk.1]

/-- Lookup of a node element's id in the node table, assuming document node
ids are pairwise distinct: the entry is exactly the last-wins scanned pair of
coordinates, and absent when either coordinate tag is missing. -/
lemma nodesOf_lookup {ns : List NodeElem} {n : NodeElem}
    (hmem : n ∈ ns) (hnd : (ns.map NodeElem.id).Nodup) :
    nodesOf ns n.id =
      (match scanNodeTags n.tags (none, none) with
       | (some x, some y) => some ⟨x, y⟩
       | _ => none) := by
  obtain ⟨pre, post, rfl⟩ := List.append_of_mem hmem
  have hmap : ((pre ++ n :: post).map NodeElem.id) =
      pre.map NodeElem.id ++ n.id :: post.map NodeElem.id := by simp
  rw [hmap] at hnd
  rw [List.nodup_append] at hnd
  obtain ⟨_, hnd2, hdisj⟩ := hnd
  have hpre : n.id ∉ pre.map NodeElem.id := fun hc => hdisj hc (by simp)
  have hpost : n.id ∉ post.map NodeElem.id := (List.nodup_cons.mp hnd2).1
  unfold nodesOf
  rw [List.foldl_append, List.foldl_cons]
  rw [foldl_insertNode_not_mem post _ n.id hpost]
  rcases hsc : scanNodeTags n.tags (none, none) with ⟨a, b⟩
  cases a with
  | none =>
    rw [insertNode_self_other (by rw [hsc]; exact Or.inl rfl)]
    rw [foldl_insertNode_not_mem pre _ n.id hpre]
  | some x =>
    cases b with
    | none =>
      rw [insertNode_self_other (by rw [hsc]; exact Or.inr rfl)]
      rw [foldl_insertNode_not_mem pre _ n.id hpre]
    | some y =>
      rw [insertNode_self_both hsc]

lemma scanNodeTags_fst_no_x (ts : List (String × ℝ))
    (h : ∀ v : ℝ, ("local_x", v) ∉ ts) :
    ∀ acc, (scanNodeTags ts acc).1 = acc.1 := by
  induction ts with
  | nil => intro acc; rfl
  | cons kv rest ih =>
    intro acc
    obtain ⟨k, v⟩ := kv
    obtain ⟨lx, ly⟩ := acc
    have hk : k ≠ "local_x" := by
      intro hc; exact h v (by simp [hc])
    have hrest : ∀ v' : ℝ, ("local_x", v') ∉ rest :=
      fun v' hc => h v' (by simp [hc])
    simp only [scanNodeTags, if_neg hk]
    split_ifs
    · exact ih hrest (lx, some v)
    · exact ih hrest (lx, ly)

lemma scanNodeTags_snd_no_y (ts : List (String × ℝ))
    (h : ∀ v : ℝ, ("local_y", v) ∉ ts) :
    ∀ acc, (scanNodeTags ts acc).2 = acc.2 := by
  induction ts with
  | nil => intro acc; rfl
  | cons kv rest ih =>
    intro acc
    obtain ⟨k, v⟩ := kv
    obtain ⟨lx, ly⟩ := acc
    have hk : k ≠ "local_y" := by
      intro hc; exact h v (by simp [hc])
    have hrest : ∀ v' : ℝ, ("local_y", v') ∉ rest :=
      fun v' hc => h v' (by simp [hc])
    by_cases hc1 : k = "local_x"
    · simp only [scanNodeTags, if_pos hc1]
      exact ih hrest (some v, ly)
    · simp only [scanNodeTags, if_neg hc1, if_neg hk]
      exact ih hrest (lx, ly)

lemma scanNodeTags_fst_mem (ts : List (String × ℝ)) :
    ∀ acc x, (scanNodeTags ts acc).1 = some x →
      ("local_x", x) ∈ ts ∨ acc.1 = some x := by
  induction ts with
  | nil => intro acc x h; exact Or.inr h
  | cons kv rest ih =>
    intro acc x h
    obtain ⟨k, v⟩ := kv
    obtain ⟨lx, ly⟩ := acc
    by_cases hk : k = "local_x"
    · subst hk
      rw [scanNodeTags, if_pos rfl] at h
      rcases ih (some v, ly) x h with hmem | hacc
      · exact Or.inl (by simp [hmem])
      · simp at hacc
        exact Or.inl (by simp [hacc])
    · by_cases hk2 : k = "local_y"
      · subst hk2
        rw [scanNodeTags, if_neg hk, if_pos rfl] at h
        rcases ih (lx, some v) x h with hmem | hacc
        · exact Or.inl (by simp [hmem])
        · exact Or.inr hacc
      · rw [scanNodeTags, if_neg hk, if_neg hk2] at h
        rcases ih (lx, ly) x h with hmem | hacc
        · exact Or.inl (by simp [hmem])
        · exact Or.inr hacc

lemma scanNodeTags_snd_mem (ts : List (String × ℝ)) :
    ∀ acc y, (scanNodeTags ts acc).2 = some y →
      ("local_y", y) ∈ ts ∨ acc.2 = some y := by
  induction ts with
  | nil => intro acc y h; exact Or.inr h
  | cons kv rest ih =>
    intro acc y h
    obtain ⟨k, v⟩ := kv
    obtain ⟨lx, ly⟩ := acc
    by_cases hk : k = "local_x"
    · subst hk
      rw [scanNodeTags, if_pos rfl] at h
      rcases ih (some v, ly) y h with hmem | hacc
      · exact Or.inl (by simp [hmem])
      · exact Or.inr hacc
    · by_cases hk2 : k = "local_y"
      · subst hk2
        rw [scanNodeTags, if_neg hk, if_pos rfl] at h
        rcases ih (lx, some v) y h with hmem | hacc
        · exact Or.inl (by simp [hmem])
        · simp at hacc
          exact Or.inl (by simp [hacc])
      · rw [scanNodeTags, if_neg hk, if_neg hk2] at h
        rcases ih (lx, ly) y h with hmem | hacc
        · exact Or.inl (by simp [hmem])
        · exact Or.inr hacc

lemma scanNodeTags_fst_isSome_mono (ts : List (String × ℝ)) :
    ∀ acc, acc.1.isSome → (scanNodeTags ts acc).1.isSome := by
  induction ts with
  | nil => intro acc h; exact h
  | cons kv rest ih =>
    intro acc h
    obtain ⟨k, v⟩ := kv
    obtain ⟨lx, ly⟩ := acc
    simp only [scanNodeTags]
    split_ifs
    · exact ih (some v, ly) (by simp)
    · exact ih (lx, some v) h
    · exact ih (lx, ly) h

lemma scanNodeTags_snd_isSome_mono (ts : List (String × ℝ)) :
    ∀ acc, acc.2.isSome → (scanNodeTags ts acc).2.isSome := by
  induction ts with
  | nil => intro acc h; exact h
  | cons kv rest ih =>
    intro acc h
    obtain ⟨k, v⟩ := kv
    obtain ⟨lx, ly⟩ := acc
    simp only [scanNodeTags]
    split_ifs
    · exact ih (some v, ly) h
    · exact ih (lx, some v) (by simp)
    · exact ih (lx, ly) h

lemma scanNodeTags_fst_isSome_of_mem (ts : List (String × ℝ)) :
    ∀ acc, (∃ x : ℝ, ("local_x", x) ∈ ts) → (scanNodeTags ts acc).1.isSome := by
  induction ts with
  | nil =>
    intro acc h
    obtain ⟨x, hx⟩ := h
    cases hx
  | cons kv rest ih =>
    intro acc h
    obtain ⟨x, hx⟩ := h
    obtain ⟨k, v⟩ := kv
    obtain ⟨lx, ly⟩ := acc
    rcases List.mem_cons.mp hx with hhead | htail
    · injection hhead with h1 h2
      subst h1
      simp only [scanNodeTags, if_pos rfl]
      exact scanNodeTags_fst_isSome_mono rest (some v, ly) (by simp)
    · simp only [scanNodeTags]
      split_ifs
      · exact scanNodeTags_fst_isSome_mono rest (some v, ly) (by simp)
      · exact ih (lx, some v) ⟨x, htail⟩
      · exact ih (lx, ly) ⟨x, htail⟩

lemma scanNodeTags_snd_isSome_of_mem (ts : List (String × ℝ)) :
    ∀ acc, (∃ y : ℝ, ("local_y", y) ∈ ts) → (scanNodeTags ts acc).2.isSome := by
  induction ts with
  | nil =>
    intro acc h
    obtain ⟨y, hy⟩ := h
    cases hy
  | cons kv rest ih =>
    intro acc h
    obtain ⟨y, hy⟩ := h
    obtain ⟨k, v⟩ := kv
    obtain ⟨lx, ly⟩ := acc
    rcases List.mem_cons.mp hy with hhead | htail
    · injection hhead with h1 h2
      subst h1
      simp only [scanNodeTags, if_neg (by decide : ¬("local_y" : String) = "local_x"),
        if_pos rfl]
      exact scanNodeTags_snd_isSome_mono rest (lx, some v) (by simp)
    · simp only [scanNodeTags]
      split_ifs
      · exact ih (some v, ly) ⟨y, htail⟩
      · exact scanNodeTags_snd_isSome_mono rest (lx, some v) (by simp)
      · exact ih (lx, ly) ⟨y, htail⟩

lemma roadWidthA_mkRoad (road_id : Nat) (lp rp : List Point) :
    roadWidthA (mkRoad road_id lp rp) = some (avgWidth (laneWidthsOf lp rp)) := rfl

lemma avgWidth_of_ne_nil {ws : List ℝ} (h : ws ≠ []) :
    avgWidth ws = ws.sum / ws.length := by
  unfold avgWidth
  rw [if_neg]
  simp [h]

lemma truthy_none : truthy none = false := rfl

lemma truthy_some_empty : truthy (some "") = false := rfl

lemma relRoad_none_of_boundaries {nodes : NodeTbl} {ways : WayTbl} {rel : Rel}
    {road_id : Nat} (h : boundaries nodes ways rel = none) :
    relRoad nodes ways rel road_id = none := by
  simp only [relRoad, h]

lemma scanBad : scanMembers relBad.members (none, none) = (some "NOPE", some "R") := by
  simp [scanMembers, relBad]

lemma boundariesBad : boundaries nodesW waysW relBad = none := by
  unfold boundaries
  rw [scanBad]
  simp [truthy, waysW]

lemma relRoadBad (road_id : Nat) : relRoad nodesW waysW relBad road_id = none :=
  relRoad_none_of_boundaries boundariesBad

lemma createC5 : create_opendrive_local nodesW waysW [relW, relBad] = ([roadW], 1) := by
  unfold create_opendrive_local
  simp only [convertAux, relRoadW, relRoadBad]

lemma boundaries_inj {nodes : NodeTbl} {ways : WayTbl} {rel : Rel}
    {lp rp lp' rp' : List Point}
    (h1 : boundaries nodes ways rel = some (lp, rp))
    (h2 : boundaries nodes ways rel = some (lp', rp')) : lp = lp' ∧ rp = rp' := by
  rw [h1] at h2
  have h3 := Option.some.inj h2
  exact ⟨congrArg Prod.fst h3, congrArg Prod.snd h3⟩

/-- For an emitted road the width-sample list is non-empty (it has at least
`min` of the two boundary lengths ≥ 2 entries), so the emitted width
coefficient is the arithmetic mean of the samples, not the `3.5` default. -/
lemma width_mean_of_emitted {nodes : NodeTbl} {ways : WayTbl} {rel : Rel}
    {road_id : Nat} {road : Road} {lp rp : List Point}
    (h : relRoad nodes ways rel road_id = some road)
    (hb : boundaries nodes ways rel = some (lp, rp)) :
    laneWidthsOf lp rp ≠ [] ∧ 2 ≤ (laneWidthsOf lp rp).length ∧
    roadWidthA road = some ((laneWidthsOf lp rp).sum / (laneWidthsOf lp rp).length) := by
  obtain ⟨lp', rp', hb', hl, hr, _, hroad⟩ := relRoad_some_iff.mp h
  obtain ⟨he1, he2⟩ := boundaries_inj hb hb'
  subst he1
  subst he2
  have hlen : (laneWidthsOf lp rp).length = min lp.length rp.length := by
    simp [laneWidthsOf]
  have h2 : 2 ≤ (laneWidthsOf lp rp).length := by
    rw [hlen]
    omega
  have hne : laneWidthsOf lp rp ≠ [] := by
    intro hc
    rw [hc] at h2
    simp at h2
  refine ⟨hne, h2, ?_⟩
  rw [hroad, roadWidthA_mkRoad, avgWidth_of_ne_nil hne]

/-- C1 (amended): a relation that passes the member-resolution and
both-boundaries-two-point checks is emitted even when every consecutive
centerline pair is within the `0.01` epsilon, and the emitted road's
`planView` is non-empty exactly when some consecutive centerline pair is
longer than `0.01` (so a road whose centerline pairs are all within the
epsilon appears in the output with an empty geometry sequence). -/
theorem c1_planView_nonempty_iff {nodes : NodeTbl} {ways : WayTbl} {rel : Rel}
    {road_id : Nat} {road : Road} {lp rp : List Point}
    (h : relRoad nodes ways rel road_id = some road)
    (hb : boundaries nodes ways rel = some (lp, rp)) :
    road.planView ≠ [] ↔
      ∃ pq ∈ consecutivePairs (centerlineOf lp rp), 0.01 < segLen pq.1 pq.2 := by
  obtain ⟨lp', rp', hb', _, _, _, hroad⟩ := relRoad_some_iff.mp h
  obtain ⟨he1, he2⟩ := boundaries_inj hb hb'
  subst he1
  subst he2
  rw [hroad, mkRoad_planView, ne_eq, calculate_geometry_fst_nil_iff]
  push_neg
  rfl

/-- C1 counterexample: a concrete input whose single relation passes every
emission check, yet the road written to the output document holds no
geometry record in its `planView`. -/
theorem c1_counterexample :
    create_opendrive_local nodesC1 waysC1 [relW] = ([roadC1], 1) ∧
    roadC1.planView = [] :=
  ⟨createC1, rfl⟩

/-- C1 witness: the amended statement applied to a concrete emitted road. -/
theorem c1_witness :
    relRoad nodesW waysW relW 0 = some roadW ∧
    boundaries nodesW waysW relW = some (lpW, rpW) ∧
    (roadW.planView ≠ [] ↔
      ∃ pq ∈ consecutivePairs (centerlineOf lpW rpW), 0.01 < segLen pq.1 pq.2) :=
  ⟨relRoadW, boundariesW, c1_planView_nonempty_iff relRoadW boundariesW⟩

/-- C2 counterexample: on `[(0,0), (0,0.005), (0,10)]` the total length is
not `10.0` and the single record does not start at `(0, 0)`. -/
theorem c2_counterexample :
    (calculate_geometry ptsC2).2 ≠ 10 ∧
    (calculate_geometry ptsC2).1.map Geometry.y ≠ [0] := by
  rw [calcC2]
  refine ⟨by norm_num, ?_⟩
  simp only [List.map_cons, List.map_nil, ne_eq, List.cons.injEq]
  norm_num

/-- C2 (amended): the first pair (length `0.005 < 0.01`) is skipped with no
offset advance, and exactly one record is produced — starting at the
intermediate point `(0, 0.005)`, heading `π/2`, length `9.995` — with total
length `9.995`. -/
theorem c2_record_eval :
    calculate_geometry ptsC2 =
      ([{ s := 0, x := 0, y := 0.005, hdg := Real.pi / 2, length := 9.995 }], 9.995) :=
  calcC2

/-- C3: the geometry derivation emits, in order of consecutive index pairs,
one record per pair whose Euclidean length exceeds `0.01` — at the current
accumulated offset, with heading `atan2 dy dx`, advancing the offset by the
length, and skipping short pairs with no record and no offset advance; zero
or one input points give `([], 0)`; and `[(0,0), (3,4)]` gives one record of
length `5`, heading `atan2 4 3`, `s = 0`, total length `5`. -/
theorem c3_algorithm :
    (∀ points : List Point, calculate_geometry points = specDerive points) ∧
    calculate_geometry [] = ([], 0) ∧
    (∀ P : Point, calculate_geometry [P] = ([], 0)) ∧
    calculate_geometry [⟨0, 0⟩, ⟨3, 4⟩] =
      ([{ s := 0, x := 0, y := 0, hdg := atan2 4 3, length := 5 }], 5) := by
  refine ⟨calculate_geometry_eq_specDerive, rfl, fun P => rfl, ?_⟩
  have h1 : segLen ⟨0, 0⟩ ⟨3, 4⟩ = 5 := segLen_eval (by norm_num) (by norm_num)
  rw [calculate_geometry]
  simp only [calcGeomAux, h1, if_pos (by norm_num : (0.01 : ℝ) < 5)]
  norm_num

/-- C4: an emitted road's declared length is the sum of its geometry
records' lengths, and each record's `s` is the sum of the lengths of the
records before it. -/
theorem c4_length_sum {nodes : NodeTbl} {ways : WayTbl} {rel : Rel}
    {road_id : Nat} {road : Road}
    (h : relRoad nodes ways rel road_id = some road) :
    road.length = (road.planView.map Geometry.length).sum ∧
    ∀ (j : Nat) (g : Geometry), road.planView.get? j = some g →
      g.s = ((road.planView.take j).map Geometry.length).sum := by
  obtain ⟨lp, rp, _, _, _, _, hroad⟩ := relRoad_some_iff.mp h
  subst hroad
  have hpv : (mkRoad road_id lp rp).planView =
      specRecordsFrom 0 (quals (centerlineOf lp rp)) := by
    rw [mkRoad_planView, calculate_geometry_eq_specDerive]
    rfl
  refine ⟨?_, ?_⟩
  · rw [mkRoad_length, hpv, calculate_geometry_eq_specDerive, specDerive]
    exact (specRecordsFrom_map_length _ 0).symm
  · simp only [hpv]
    intro j g hg
    rw [specRecordsFrom_get?_s _ 0 j g hg, zero_add]

/-- C4 witness: the length/offset bookkeeping on a concrete emitted road. -/
theorem c4_witness :
    relRoad nodesW waysW relW 0 = some roadW ∧
    roadW.length = (roadW.planView.map Geometry.length).sum :=
  ⟨relRoadW, (c4_length_sum relRoadW).1⟩

/-- C5: road ids are `0, 1, ...` in emission order and the processed count
equals the number of emitted roads (so a skipped relation consumes no id);
concretely, with a well-formed first relation and a second relation whose
left member references a non-existent way id, exactly one road (id `0`) is
emitted and the count is `1`. -/
theorem c5_road_ids :
    (∀ (nodes : NodeTbl) (ways : WayTbl) (rels : List Rel),
      (create_opendrive_local nodes ways rels).1.map Road.id =
        List.range (create_opendrive_local nodes ways rels).1.length ∧
      (create_opendrive_local nodes ways rels).2 =
        (create_opendrive_local nodes ways rels).1.length) ∧
    create_opendrive_local nodesW waysW [relW, relBad] = ([roadW], 1) ∧
    roadW.id = 0 := by
  refine ⟨?_, createC5, rfl⟩
  intro nodes ways rels
  obtain ⟨h1, h2⟩ := convertAux_ids nodes ways rels 0 0
  unfold create_opendrive_local
  constructor
  · rw [List.range_eq_range']
    exact h1
  · rw [h2, Nat.zero_add]

/-- C6: the `3.5` default-width branch is dead for emitted roads — the
guards force at least two width samples, so the emitted width coefficient is
the arithmetic mean of the non-empty sample list. -/
theorem c6_no_default_width {nodes : NodeTbl} {ways : WayTbl} {rel : Rel}
    {road_id : Nat} {road : Road} {lp rp : List Point}
    (h : relRoad nodes ways rel road_id = some road)
    (hb : boundaries nodes ways rel = some (lp, rp)) :
    laneWidthsOf lp rp ≠ [] ∧ 2 ≤ (laneWidthsOf lp rp).length ∧
    roadWidthA road = some ((laneWidthsOf lp rp).sum / (laneWidthsOf lp rp).length) :=
  width_mean_of_emitted h hb

/-- C6 witness: the mean (not the default) width on a concrete emitted road. -/
theorem c6_witness :
    relRoad nodesW waysW relW 0 = some roadW ∧
    boundaries nodesW waysW relW = some (lpW, rpW) ∧
    roadWidthA roadW = some ((laneWidthsOf lpW rpW).sum / (laneWidthsOf lpW rpW).length) :=
  ⟨relRoadW, boundariesW, (c6_no_default_width relRoadW boundariesW).2.2⟩

/-- C8: when all aligned boundary pairs are at the same separation `d`, the
emitted width coefficient is exactly `d`. -/
theorem c8_constant_width {nodes : NodeTbl} {ways : WayTbl} {rel : Rel}
    {road_id : Nat} {road : Road} {lp rp : List Point} {d : ℝ}
    (h : relRoad nodes ways rel road_id = some road)
    (hb : boundaries nodes ways rel = some (lp, rp))
    (hd : ∀ w ∈ laneWidthsOf lp rp, w = d) :
    roadWidthA road = some d := by
  obtain ⟨hne, _, hw⟩ := width_mean_of_emitted h hb
  have hn : ((laneWidthsOf lp rp).length : ℝ) ≠ 0 := by
    intro hc
    exact hne (List.length_eq_zero.mp (Nat.cast_eq_zero.mp hc))
  have hsum : (laneWidthsOf lp rp).sum = (laneWidthsOf lp rp).length • d :=
    List.sum_eq_card_nsmul _ d hd
  rw [hw, hsum, nsmul_eq_mul, mul_div_cancel_left₀ d hn]

/-- C8 witness: constant separation `2` yields emitted width `2`. -/
theorem c8_witness :
    relRoad nodesW waysW relW 0 = some roadW ∧
    boundaries nodesW waysW relW = some (lpW, rpW) ∧
    (∀ w ∈ laneWidthsOf lpW rpW, w = 2) ∧
    roadWidthA roadW = some 2 := by
  have hd : ∀ w ∈ laneWidthsOf lpW rpW, w = 2 := by
    rw [laneWidthsW]
    intro w hw
    rcases List.mem_cons.mp hw with h | h
    · exact h
    · simpa using h
  exact ⟨relRoadW, boundariesW, hd, c8_constant_width relRoadW boundariesW hd⟩

/-- C9: every emitted road carries exactly one lane section at `s = 0` with
no left lane, exactly one center lane (id `0`, type `none`), and exactly one
right lane (id `-1`, type `driving`, non-level) with the constant width
polynomial and the solid/standard/white road mark of width `0.12`. -/
theorem c9_lane_structure {nodes : NodeTbl} {ways : WayTbl} {rel : Rel}
    {road_id : Nat} {road : Road} {lp rp : List Point}
    (h : relRoad nodes ways rel road_id = some road)
    (hb : boundaries nodes ways rel = some (lp, rp)) :
    road.laneSections =
      [⟨0, [],
        [⟨0, "none", none, [], []⟩],
        [⟨-1, "driving", some "false",
          [⟨0, avgWidth (laneWidthsOf lp rp), 0, 0, 0⟩],
          [⟨0, "solid", "standard", "white", 0.12⟩]⟩]⟩] := by
  obtain ⟨lp', rp', hb', _, _, _, hroad⟩ := relRoad_some_iff.mp h
  obtain ⟨he1, he2⟩ := boundaries_inj hb hb'
  subst he1
  subst he2
  rw [hroad]
  rfl

/-- C9 witness: the lane structure of a concrete emitted road. -/
theorem c9_witness :
    relRoad nodesW waysW relW 0 = some roadW ∧
    boundaries nodesW waysW relW = some (lpW, rpW) ∧
    roadW.laneSections =
      [⟨0, [],
        [⟨0, "none", none, [], []⟩],
        [⟨-1, "driving", some "false",
          [⟨0, avgWidth (laneWidthsOf lpW rpW), 0, 0, 0⟩],
          [⟨0, "solid", "standard", "white", 0.12⟩]⟩]⟩] :=
  ⟨relRoadW, boundariesW, c9_lane_structure relRoadW boundariesW⟩

/-- C10: a relation whose last left-role (or last right-role) way member has
a missing or empty `ref` is skipped without error: no road is emitted and
neither counter changes. -/
theorem c10_missing_ref_skip {nodes : NodeTbl} {ways : WayTbl} {rel : Rel}
    {rest : List Rel} {road_id processed : Nat}
    {ms1 : List Member} {m : Member} {ms2 : List Member}
    (hsplit : rel.members = ms1 ++ m :: ms2)
    (href : m.ref = none ∨ m.ref = some "")
    (hrole : (m.role = some "left" ∧ m.type = some "way" ∧
                ∀ m' ∈ ms2, ¬(m'.role = some "left" ∧ m'.type = some "way")) ∨
             (m.role = some "right" ∧ m.type = some "way" ∧
                ∀ m' ∈ ms2, ¬(m'.role = some "right" ∧ m'.type = some "way"))) :
    relRoad nodes ways rel road_id = none ∧
    convertAux nodes ways (rel :: rest) road_id processed =
      convertAux nodes ways rest road_id processed := by
  have htr : truthy m.ref = false := by
    rcases href with h | h <;> rw [h] <;> rfl
  have hbn : boundaries nodes ways rel = none := by
    apply boundaries_eq_none
    rw [hsplit, scanMembers_append]
    rcases hacc : scanMembers ms1 (none, none) with ⟨l0, r0⟩
    rcases hrole with ⟨h1, h2, h3⟩ | ⟨h1, h2, h3⟩
    · left
      simp only [scanMembers, if_pos (And.intro h1 h2)]
      rw [scanMembers_fst_no_left ms2 h3 (m.ref, r0)]
      exact htr
    · right
      by_cases hc1 : m.role = some "left" ∧ m.type = some "way"
      · rw [h1] at hc1
        simp at hc1
      · simp only [scanMembers, if_neg hc1, if_pos (And.intro h1 h2)]
        rw [scanMembers_snd_no_right ms2 h3 (l0, m.ref)]
        exact htr
  exact ⟨relRoad_none_of_boundaries hbn,
    convertAux_skip (relRoad_none_of_boundaries hbn)⟩

/-- C10 witness: a concrete relation whose left member has no `ref` is
skipped with both counters unchanged. -/
theorem c10_witness :
    relC10.members = [] ++ mC10 :: ms2C10 ∧
    (mC10.ref = none ∨ mC10.ref = some "") ∧
    relRoad nodesW waysW relC10 0 = none ∧
    convertAux nodesW waysW [relC10] 0 0 = convertAux nodesW waysW [] 0 0 := by
  have h := @c10_missing_ref_skip nodesW waysW relC10 [] 0 0 [] mC10 ms2C10
    rfl (Or.inl rfl) (Or.inl ⟨rfl, rfl, by decide⟩)
  exact ⟨rfl, Or.inl rfl, h.1, h.2⟩

/-- C7: with pairwise-distinct node ids, a node element whose tags include
both `local_x` and `local_y` appears in the node table with the (last-wins)
coordinates taken from its own tags, and a node element missing either tag
is absent from the node table. -/
theorem c7_node_table {ns : List NodeElem} {n : NodeElem}
    (hmem : n ∈ ns) (hnd : (ns.map NodeElem.id).Nodup) :
    ((∃ x, ("local_x", x) ∈ n.tags) → (∃ y, ("local_y", y) ∈ n.tags) →
      ∃ x y, ("local_x", x) ∈ n.tags ∧ ("local_y", y) ∈ n.tags ∧
        nodesOf ns n.id = some ⟨x, y⟩) ∧
    (((∀ x, ("local_x", x) ∉ n.tags) ∨ (∀ y, ("local_y", y) ∉ n.tags)) →
      nodesOf ns n.id = none) := by
  have hlook := nodesOf_lookup hmem hnd
  constructor
  · intro hx hy
    have h1 := scanNodeTags_fst_isSome_of_mem n.tags (none, none) hx
    have h2 := scanNodeTags_snd_isSome_of_mem n.tags (none, none) hy
    obtain ⟨x, hx'⟩ := Option.isSome_iff_exists.mp h1
    obtain ⟨y, hy'⟩ := Option.isSome_iff_exists.mp h2
    have hxmem : ("local_x", x) ∈ n.tags := by
      rcases scanNodeTags_fst_mem n.tags (none, none) x hx' with h | h
      · exact h
      · cases h
    have hymem : ("local_y", y) ∈ n.tags := by
      rcases scanNodeTags_snd_mem n.tags (none, none) y hy' with h | h
      · exact h
      · cases h
    refine ⟨x, y, hxmem, hymem, ?_⟩
    rw [hlook]
    rcases hsc : scanNodeTags n.tags (none, none) with ⟨a, b⟩
    rw [hsc] at hx' hy'
    dsimp only at hx' hy'
    subst hx'
    subst hy'
    rfl
  · intro hmiss
    rw [hlook]
    rcases hmiss with hno | hno
    · have := scanNodeTags_fst_no_x n.tags hno (none, none)
      rcases hsc : scanNodeTags n.tags (none, none) with ⟨a, b⟩
      rw [hsc] at this
      dsimp only at this
      subst this
      cases b <;> rfl
    · have := scanNodeTags_snd_no_y n.tags hno (none, none)
      rcases hsc : scanNodeTags n.tags (none, none) with ⟨a, b⟩
      rw [hsc] at this
      dsimp only at this
      subst this
      cases a <;> rfl

/-- C7 witness: the node-table characterisation applied to a concrete node
element with both coordinate tags. -/
theorem c7_witness :
    nodeElemA ∈ [nodeElemA, nodeElemB] ∧
    (([nodeElemA, nodeElemB].map NodeElem.id).Nodup) ∧
    ((∃ x, ("local_x", x) ∈ nodeElemA.tags) → (∃ y, ("local_y", y) ∈ nodeElemA.tags) →
      ∃ x y, ("local_x", x) ∈ nodeElemA.tags ∧ ("local_y", y) ∈ nodeElemA.tags ∧
        nodesOf [nodeElemA, nodeElemB] nodeElemA.id = some ⟨x, y⟩) :=
  ⟨by simp, by simp [nodeElemA, nodeElemB],
    (c7_node_table (by simp) (by simp [nodeElemA, nodeElemB])).1⟩

end Lanelet2
